import Mathlib

/-!
Verification of the turn-orchestration engine of the dive_bar repository:
a shallow embedding in Lean 4 of `dive_bar/diversity.py`, `dive_bar/bartender.py`
and the orchestration loop of `dive_bar/app.py`, together with theorems settling
the specification's testable properties.

Python floats are modelled as exact rationals, Python dicts as association
lists in insertion order, `time.time()` and `random.random()` as explicit
parameters, and the external LLM engine as an oracle `Nat → String` giving
successive generation results.
-/

/- Core marks these rational operations `@[irreducible]`, which blocks the
`decide` tactic's elaboration-time evaluation (the kernel reduces them
fine); lift that locally so concrete runs of the model can be decided. -/
attribute [local semireducible] Rat.add Rat.sub Rat.mul Rat.inv Rat.ofScientific

namespace DiveBar

/-- Source `dive_bar/models.py` `Message`: a single message in the bar conversation. -/
structure Message where
  agent_name : String
  content : String
  turn_number : Nat
  timestamp : ℚ
  deriving Repr, DecidableEq

/-! ### Python string primitives used by the source -/

/-- The six characters Python's `str.strip()` / `str.split()` treat as
whitespace in the source's ASCII texts. -/
def isPySpace (c : Char) : Bool :=
  c = ' ' || c = '\t' || c = '\n' || c = '\r' || c = '\x0b' || c = '\x0c'

/-- Python's `string.punctuation` (32 ASCII characters). -/
def punctuationChars : List Char :=
  ("!\"#$%&\x27()*+,-./:;<=>?@[\\]^_\x60\x7b|\x7d~").toList

/-- ASCII `[A-Z]`. -/
def isAsciiUpper (c : Char) : Bool :=
  'A' ≤ c && c ≤ 'Z'

/-- Python regex `\w` on ASCII text: letters, digits, underscore. -/
def isWordChar (c : Char) : Bool :=
  c.isAlphanum || c = '_'

/-- Drop trailing characters satisfying `p`. -/
def dropTrailing (p : Char → Bool) (l : List Char) : List Char :=
  (l.reverse.dropWhile p).reverse

/-- Python `str.strip()`. -/
def pyStrip (s : String) : String :=
  String.mk (dropTrailing isPySpace (s.toList.dropWhile isPySpace))

/-- ASCII lowering of one character (Python `str.lower()` on the source's
ASCII texts). -/
def charLower (c : Char) : Char :=
  if 'A' ≤ c && c ≤ 'Z' then Char.ofNat (c.toNat + 32) else c

/-- Python `str.lower()`. -/
def strLower (s : String) : String :=
  String.mk (s.toList.map charLower)

/-- Split a character list at every character satisfying `p`, keeping
empty pieces (Python `str.split(sep)` shape: n separators → n+1 pieces). -/
def splitOnPred (p : Char → Bool) : List Char → List (List Char)
  | [] => [[]]
  | c :: tl =>
    if p c then [] :: splitOnPred p tl
    else
      match splitOnPred p tl with
      | [] => [[c]]
      | h :: t => (c :: h) :: t

/-- Python `str.split()` with no argument: split on whitespace runs,
dropping empty pieces. -/
def pySplit (s : String) : List String :=
  ((splitOnPred isPySpace s.toList).map String.mk).filter (fun w => w ≠ "")

/-- Boolean substring test, Python's `needle in haystack` on strings:
does `sub` start `l`? -/
def subAt (sub l : List Char) : Bool :=
  match sub, l with
  | [], _ => true
  | _ :: _, [] => false
  | a :: as, b :: bs => a = b && subAt as bs

/-- Python's `needle in haystack` for strings: `sub` occurs contiguously in `l`. -/
def subAnywhere (sub l : List Char) : Bool :=
  match l with
  | [] => sub.isEmpty
  | _ :: tl => subAt sub l || subAnywhere sub tl

/-- Python `pat in hay` on strings. -/
def strContains (hay pat : String) : Bool :=
  subAnywhere pat.toList hay.toList

/-! ### `dive_bar/diversity.py` -/

/-- Source `diversity.py` `STOP_WORDS`. -/
def STOP_WORDS : List String :=
  ["i", "me", "my", "we", "you", "your", "he", "she",
   "it", "they", "them", "the", "a", "an", "and", "or",
   "but", "in", "on", "at", "to", "for", "of", "with",
   "is", "am", "are", "was", "were", "be", "been",
   "have", "has", "had", "do", "does", "did", "will",
   "just", "not", "no", "so", "if", "that", "this",
   "what", "when", "how", "all", "up", "out", "about",
   "like", "got", "get", "go", "can", "would", "could",
   "should", "there", "here", "from", "its", "than",
   "into", "over", "some", "then", "too", "very",
   "dont", "im", "ive", "thats", "yeah", "oh"]

/-- Scoring weight `W_NGRAM = 0.50`. -/
def W_NGRAM : ℚ := 1/2
/-- Scoring weight `W_OPENER = 0.25`. -/
def W_OPENER : ℚ := 1/4
/-- Scoring weight `W_STRUCT = 0.25`. -/
def W_STRUCT : ℚ := 1/4
/-- Source `NGRAM_OVERLAP_THRESHOLD = 0.30`. -/
def NGRAM_OVERLAP_THRESHOLD : ℚ := 3/10
/-- Source `MAX_OPENER_REPEATS = 2`. -/
def MAX_OPENER_REPEATS : Nat := 2

/-- Source `diversity.py` `DiversityResult`. -/
structure DiversityResult where
  score : ℚ
  passed : Bool
  problems : List String
  repeated_ngrams : List String
  formulaic_opener : Option String
  structural_score : ℚ
  deriving Repr, DecidableEq

/-- Source `diversity.py` `tokenize`: lowercase, strip punctuation, split on
whitespace, remove stop words. -/
def tokenize (text : String) : List String :=
  let lowered := strLower text
  let stripped := String.mk (lowered.toList.filter (fun c => ¬ punctuationChars.contains c))
  (pySplit stripped).filter (fun w => ¬ STOP_WORDS.contains w)

/-- Source `diversity.py` `extract_ngrams`: contiguous n-grams of a word list
(`tuple(words[i:i+n]) for i in range(len(words)-n+1)`). -/
def extract_ngrams (words : List String) (n : Nat) : List (List String) :=
  if words.length < n then []
  else (List.range (words.length - n + 1)).map (fun i => (words.drop i).take n)

/-- Python `range(a, b+1)` as a list. -/
def rangeIncl (a b : Nat) : List Nat :=
  (List.range (b + 1 - a)).map (fun i => i + a)

/-- Source `diversity.py` `_build_history_ngrams`: all n-grams (sizes
`ngram_min..ngram_max`) from the history messages.  The Python set is
modelled as a list; only membership is ever used. -/
def build_history_ngrams (history : List Message) (ngram_min ngram_max : Nat) :
    List (List String) :=
  history.flatMap (fun msg =>
    (rangeIncl ngram_min ngram_max).flatMap (fun n => extract_ngrams (tokenize msg.content) n))

/-- Source `diversity.py` `_check_ngram_overlap`: returns
`(overlap_ratio, repeated phrases)`.  The Python
`list({" ".join(ng) for ng in overlapping})[:5]` (a set, listed, capped)
is modelled as first-occurrence deduplication then `take 5`. -/
def check_ngram_overlap (response : String) (history_ngrams : List (List String))
    (ngram_min ngram_max : Nat) : ℚ × List String :=
  let words := tokenize response
  if words.length < ngram_min then (0, [])
  else
    let response_ngrams := (rangeIncl ngram_min ngram_max).flatMap (fun n => extract_ngrams words n)
    if response_ngrams.isEmpty then (0, [])
    else
      let overlapping := response_ngrams.filter (fun ng => history_ngrams.contains ng)
      let ratio : ℚ := (overlapping.length : ℚ) / (response_ngrams.length : ℚ)
      let phrases := (overlapping.map (fun ng => String.intercalate (" ") ng)).dedup
      (ratio, phrases.take 5)

/-- Source `diversity.py` `_get_opener`: first 6 words, lower-cased, with
non-`\w`/non-whitespace characters removed, stripped. -/
def get_opener (text : String) : String :=
  let words := (pySplit (strLower text)).take 6
  let opener := String.intercalate (" ") words
  pyStrip (String.mk (opener.toList.filter (fun c => isWordChar c || isPySpace c)))

/-- Source `diversity.py` `_build_opener_counts`: the Counter of openers used by
this agent in history, modelled as its lookup function (`Counter.get(op, 0)`).
Only non-empty openers are counted (`if opener:` in the source). -/
def build_opener_counts (history : List Message) (agent_name : String) :
    String → Nat := fun op =>
  ((history.filter (fun m => m.agent_name = agent_name)).map
    (fun m => get_opener m.content)).countP (fun o => o ≠ "" && o = op)

/-- Source `diversity.py` `_check_formulaic_opener`: the opener if it was already
used at least `MAX_OPENER_REPEATS` times, else `none`. -/
def check_formulaic_opener (response : String) (opener_counts : String → Nat) :
    Option String :=
  let opener := get_opener response
  if opener = "" then none
  else if opener_counts opener ≥ MAX_OPENER_REPEATS then some opener
  else none

/-- Source `diversity.py` `_compute_structural_features`. -/
structure StructFeatures where
  sentence_count : Nat
  question_marks : Nat
  commas : Nat
  exclamations : Nat
  word_count : Nat
  deriving Repr, DecidableEq

/-- Source `diversity.py` `_compute_structural_features`.  Python splits on the
regex `[.!?]+` then keeps pieces with non-empty strip; splitting on each
single terminator character yields the same non-empty pieces. -/
def compute_structural_features (text : String) : StructFeatures :=
  let sentences := ((splitOnPred (fun c => c = '.' || c = '!' || c = '?') text.toList).map
    (fun l => pyStrip (String.mk l))).filter (fun s => s ≠ "")
  { sentence_count := sentences.length
    question_marks := text.toList.count '?'
    commas := text.toList.count ','
    exclamations := text.toList.count '!'
    word_count := (pySplit text).length }

/-- Source `diversity.py` `_feature_similarity`: fraction of the 5 fields that
match exactly. -/
def feature_similarity (f1 f2 : StructFeatures) : ℚ :=
  let hits : Nat :=
    (if f1.sentence_count = f2.sentence_count then 1 else 0) +
    (if f1.question_marks = f2.question_marks then 1 else 0) +
    (if f1.commas = f2.commas then 1 else 0) +
    (if f1.exclamations = f2.exclamations then 1 else 0) +
    (if f1.word_count = f2.word_count then 1 else 0)
  (hits : ℚ) / 5

/-- Python `l[-n:]` for non-zero `n`: the last `n` elements. -/
def lastN {α : Type} (l : List α) (n : Nat) : List α :=
  l.drop (l.length - n)

/-- Source `diversity.py` `_check_structural_similarity`: average feature
similarity against the agent's last 3 messages; 0 if it has none. -/
def check_structural_similarity (response : String) (history : List Message)
    (agent_name : String) : ℚ :=
  let agent_msgs := lastN (history.filter (fun m => m.agent_name = agent_name)) 3
  if agent_msgs.isEmpty then 0
  else
    let resp_features := compute_structural_features response
    let sims := agent_msgs.map
      (fun m => feature_similarity resp_features (compute_structural_features m.content))
    sims.sum / (sims.length : ℚ)

/-- Python `round(x, 3)`.  Exact-rational model: `round` is half-up
(`⌊x + 1/2⌋`); Python rounds half to even, but the two agree away from
exact 5·10⁻⁴ midpoints, and every theorem below evaluates it off-midpoint. -/
def roundTo3 (x : ℚ) : ℚ :=
  (round (x * 1000) : ℤ) / 1000

/-- Python `history[-window:] if history else []` (note `-0` slices the
whole list). -/
def recentSlice (history : List Message) (window : Nat) : List Message :=
  if history.isEmpty then []
  else if window = 0 then history
  else lastN history window

/-- The three component scores of `compute_diversity_score`, exposed for
the statements below. -/
def ngram_score_of (response : String) (recent : List Message)
    (ngram_min ngram_max : Nat) : ℚ :=
  let overlap_ratio :=
    (check_ngram_overlap response (build_history_ngrams recent ngram_min ngram_max)
      ngram_min ngram_max).1
  1 - min 1 (overlap_ratio / (1/2))

/-- Opener contribution: 0 if the opener is flagged formulaic, else 1. -/
def opener_score_of (response : String) (recent : List Message) (agent_name : String) : ℚ :=
  match check_formulaic_opener response (build_opener_counts recent agent_name) with
  | some _ => 0
  | none => 1

/-- Structural contribution: `1 - average similarity`. -/
def struct_score_of (response : String) (recent : List Message) (agent_name : String) : ℚ :=
  1 - check_structural_similarity response recent agent_name

/-- The unrounded aggregate score of `compute_diversity_score`. -/
def diversity_raw_score (response : String) (recent : List Message) (agent_name : String)
    (ngram_min ngram_max : Nat) : ℚ :=
  W_NGRAM * ngram_score_of response recent ngram_min ngram_max +
  W_OPENER * opener_score_of response recent agent_name +
  W_STRUCT * struct_score_of response recent agent_name

/-- The `problems` entry recorded for excessive n-gram overlap. -/
def ngram_problems_of (response : String) (recent : List Message)
    (ngram_min ngram_max : Nat) : List String :=
  let r := check_ngram_overlap response (build_history_ngrams recent ngram_min ngram_max)
    ngram_min ngram_max
  if r.1 > NGRAM_OVERLAP_THRESHOLD then
    [("Repeated phrases: ") ++ String.intercalate (", ") (r.2.take 3)]
  else []

/-- The `problems` entry recorded for a formulaic opener. -/
def opener_problems_of (response : String) (recent : List Message)
    (agent_name : String) : List String :=
  match check_formulaic_opener response (build_opener_counts recent agent_name) with
  | some op => [("Repeated opener: \"") ++ String.mk (op.toList.take 40) ++ ("\"")]
  | none => []

/-- The `problems` entry recorded for structural similarity above 0.7. -/
def struct_problems_of (response : String) (recent : List Message)
    (agent_name : String) : List String :=
  if check_structural_similarity response recent agent_name > 7/10 then
    [("Similar structure to recent msgs")]
  else []

/-- Source `diversity.py` `compute_diversity_score`: check a response against
recent history; returns a `DiversityResult` with the rounded aggregate
score, the pass flag (`final_score >= threshold` on the unrounded score,
as in the source), and the accumulated problems in source order. -/
def compute_diversity_score (response : String) (history : List Message)
    (agent_name : String) (window : Nat) (threshold : ℚ)
    (ngram_min ngram_max : Nat) : DiversityResult :=
  let recent := recentSlice history window
  let overlap := check_ngram_overlap response
    (build_history_ngrams recent ngram_min ngram_max) ngram_min ngram_max
  let repeated_ngrams := if overlap.1 > NGRAM_OVERLAP_THRESHOLD then overlap.2 else []
  let formulaic := check_formulaic_opener response (build_opener_counts recent agent_name)
  let final_score := diversity_raw_score response recent agent_name ngram_min ngram_max
  { score := roundTo3 final_score
    passed := final_score ≥ threshold
    problems := ngram_problems_of response recent ngram_min ngram_max ++
      opener_problems_of response recent agent_name ++
      struct_problems_of response recent agent_name
    repeated_ngrams := repeated_ngrams
    formulaic_opener := formulaic
    structural_score := struct_score_of response recent agent_name }

/-! ### `dive_bar/bartender.py` -/

/-- Source `dive_bar/models.py` `AgentConfig` (prompt-only string fields kept for
fidelity; they play no role in orchestration). -/
structure AgentConfig where
  name : String
  backstory : String
  personality_traits : List String
  chattiness : ℚ
  responsiveness : ℚ
  drink : String
  speaking_style : String
  deriving Repr, DecidableEq

instance : Inhabited AgentConfig :=
  ⟨⟨"", "", [], 0, 0, "", ""⟩⟩

/-- Source `bartender.py` `W_TIME = 0.35`. -/
def W_TIME : ℚ := 35/100
/-- Source `bartender.py` `W_CHAT = 0.25`. -/
def W_CHAT : ℚ := 25/100
/-- Source `bartender.py` `W_ADDR = 0.30`. -/
def W_ADDR : ℚ := 30/100
/-- Source `bartender.py` `W_RAND = 0.10`. -/
def W_RAND : ℚ := 10/100
/-- Source `bartender.py` `TIME_CAP = 60.0`. -/
def TIME_CAP : ℚ := 60
/-- Source `bartender.py` `SILENCE_THRESHOLD = 8`. -/
def SILENCE_THRESHOLD : Nat := 8
/-- Source `bartender.py` `SILENCE_BOOST = 0.25`. -/
def SILENCE_BOOST : ℚ := 25/100
/-- Source `bartender.py` `COOLDOWN_MULT = 1.5`. -/
def COOLDOWN_MULT : ℚ := 3/2
/-- Source `bartender.py` `MAX_PAIR_STREAK = 2`. -/
def MAX_PAIR_STREAK : Nat := 2

/-- Lookup in a Python dict modelled as an insertion-ordered association
list: `d.get(k, default)`. -/
def lookupD {α : Type} (l : List (String × α)) (k : String) (default : α) : α :=
  match l.find? (fun p => p.1 = k) with
  | some p => p.2
  | none => default

/-- Python dict assignment `d[k] = v`: update in place if present, else
append in insertion order. -/
def setKey {α : Type} (l : List (String × α)) (k : String) (v : α) : List (String × α) :=
  if l.any (fun p => p.1 = k) then l.map (fun p => if p.1 = k then (k, v) else p)
  else l ++ [(k, v)]

/-- Source `bartender.py` `Bartender` mutable state.  `agents` is the dict
`name → config` in insertion order; times are rationals fed in as the
`now` parameter of each operation (the source calls `time.time()`). -/
structure BartenderState where
  agents : List AgentConfig
  tick_interval : ℚ
  cooldown : ℚ
  last_spoke : List (String × ℚ)
  last_spoke_turn : List (String × Nat)
  turn_number : Nat
  paused : Bool
  pair_history : List (String × String)
  deriving Repr, DecidableEq

/-- Source `Bartender.__init__`. -/
def bartenderInit (agent_configs : List AgentConfig) (tick_interval : ℚ) : BartenderState :=
  { agents := agent_configs
    tick_interval := tick_interval
    cooldown := tick_interval * COOLDOWN_MULT
    last_spoke := []
    last_spoke_turn := []
    turn_number := 0
    paused := false
    pair_history := [] }

/-- Source `Bartender._find_addressed`: first agent (in roster order) other than
the speaker, outside cooldown, whose lower-cased name occurs in the
lower-cased content of the last message. -/
def find_addressed (st : BartenderState) (now : ℚ) (last_message : Option Message) :
    Option String :=
  match last_message with
  | none => none
  | some m =>
    let content := strLower m.content
    let speaker := m.agent_name
    st.agents.findSome? (fun a =>
      if a.name = speaker then none
      else if now - lookupD st.last_spoke a.name 0 < st.cooldown then none
      else if strContains content (strLower a.name) then some a.name
      else none)

/-- Source `Bartender._pair_locked`: the last `MAX_PAIR_STREAK` recorded pairs all
equal `{speaker, responder}` as unordered pairs (`frozenset` equality). -/
def pair_locked (st : BartenderState) (speaker responder : String) : Bool :=
  let tail := lastN st.pair_history MAX_PAIR_STREAK
  if tail.length < MAX_PAIR_STREAK then false
  else tail.all (fun p =>
    (p.1 = speaker && p.2 = responder) || (p.1 = responder && p.2 = speaker))

/-- Source `Bartender._get_eligible`: agents not in cooldown, in roster order. -/
def get_eligible (st : BartenderState) (now : ℚ) : List String :=
  st.agents.filterMap (fun a =>
    if now - lookupD st.last_spoke a.name 0 ≥ st.cooldown then some a.name else none)

/-- Source `Bartender._time_factor`. -/
def time_factor (st : BartenderState) (now : ℚ) (name : String) : ℚ :=
  let last := lookupD st.last_spoke name 0
  if last = 0 then 1
  else min ((now - last) / TIME_CAP) 1

/-- Source `Bartender._silence_boost`.  The Python subtraction is on ints; the
gap is taken in `ℤ`. -/
def silence_boost (st : BartenderState) (name : String) : ℚ :=
  let last_turn := lookupD st.last_spoke_turn name 0
  if (st.turn_number : ℤ) - (last_turn : ℤ) ≥ (SILENCE_THRESHOLD : ℤ) then SILENCE_BOOST
  else 0

/-- Source `Bartender._addressed_factor`. -/
def addressed_factor (agent : AgentConfig) (last_message : Option Message) : ℚ :=
  match last_message with
  | none => 0
  | some m =>
    if m.agent_name = agent.name then 0
    else if strContains (strLower m.content) (strLower agent.name) then agent.responsiveness
    else 0

/-- Source `self.agents[name]` (only ever called with roster names). -/
def findAgent (st : BartenderState) (name : String) : AgentConfig :=
  (st.agents.find? (fun a => a.name = name)).getD default

/-- Source `Bartender._score_agent`; `rand` supplies the `random.random()` draw
used for this agent. -/
def score_agent (st : BartenderState) (now : ℚ) (rand : String → ℚ) (name : String)
    (last_message : Option Message) : ℚ :=
  let agent := findAgent st name
  W_TIME * time_factor st now name
    + W_CHAT * agent.chattiness
    + W_ADDR * addressed_factor agent last_message
    + W_RAND * rand name
    + silence_boost st name

/-- Python `max(scores, key=scores.get)` over a dict built in list order:
the first key attaining the maximal value. -/
def argmaxFirst (l : List String) (f : String → ℚ) : Option String :=
  l.foldl (fun acc n =>
    match acc with
    | none => some n
    | some m => if f n > f m then some n else some m) none

/-- The weighted-scoring fall-through of `Bartender.select_next`:
score every eligible agent and take the first maximal one. -/
def select_weighted (st : BartenderState) (now : ℚ) (rand : String → ℚ)
    (last_message : Option Message) : Option String :=
  let eligible := get_eligible st now
  if eligible.isEmpty then none
  else argmaxFirst eligible (fun name => score_agent st now rand name last_message)

/-- Source `Bartender.select_next`: deterministic addressing (suppressed under
pair-lock), else weighted scoring.  When the addressing path fires,
`last_message` is necessarily `some`; the `none` sub-branch is
unreachable because `find_addressed none = none`. -/
def select_next (st : BartenderState) (now : ℚ) (rand : String → ℚ)
    (last_message : Option Message) : Option String :=
  if st.paused then none
  else
    match find_addressed st now last_message with
    | some addressed =>
      match last_message with
      | some m =>
        if pair_locked st m.agent_name addressed then
          select_weighted st now rand last_message
        else some addressed
      | none => select_weighted st now rand last_message
    | none => select_weighted st now rand last_message

/-- Source `Bartender.record_spoke`: stamp the speaker's time and turn, advance
the global turn counter, and append `(last_speaker, agent_name)` to the
bounded pair-history buffer (Python truthiness: skipped for `None` or an
empty name). -/
def record_spoke (st : BartenderState) (now : ℚ) (agent_name : String)
    (last_speaker : Option String) : BartenderState :=
  { st with
    last_spoke := setKey st.last_spoke agent_name now
    last_spoke_turn := setKey st.last_spoke_turn agent_name st.turn_number
    turn_number := st.turn_number + 1
    pair_history :=
      match last_speaker with
      | some ls =>
        if ls = "" then st.pair_history
        else
          let ph := st.pair_history ++ [(ls, agent_name)]
          if ph.length > 20 then lastN ph 10 else ph
      | none => st.pair_history }

/-! ### `dive_bar/app.py`: response cleanup -/

/-- The leading-attribution regex `^[A-Z][\w]*(\s+\d+)?:\s*` of
`DiveBarApp._clean_response`, matched by maximal munch (exact here:
`[A-Z]`, `\w`, `\s`, `\d` and `:` are pairwise disjoint character
classes, so the regex engine's backtracking never helps). -/
def stripLeadName (l : List Char) : List Char :=
  match l with
  | [] => []
  | c :: rest =>
    if isAsciiUpper c then
      let afterWord := rest.dropWhile isWordChar
      match afterWord with
      | ':' :: tl => tl.dropWhile isPySpace
      | _ =>
        let sp := afterWord.takeWhile isPySpace
        let afterSp := afterWord.dropWhile isPySpace
        if sp.isEmpty then l
        else
          let ds := afterSp.takeWhile Char.isDigit
          let afterDs := afterSp.dropWhile Char.isDigit
          match ds, afterDs with
          | _ :: _, ':' :: tl => tl.dropWhile isPySpace
          | _, _ => l
    else l

/-- After a newline: `\s*[A-Z]` then `[\w\s]*:` — the first character not
in `\w ∪ \s` must be the colon. -/
def scanToColon : List Char → Bool
  | [] => false
  | c :: tl => if c = ':' then true else if isWordChar c || isPySpace c then scanToColon tl else false

/-- Does the regex `\n\s*[A-Z][\w\s]*:` match with the `\n` at the head of
`'\n' :: l`? -/
def newlineSpeakerMatch (l : List Char) : Bool :=
  match l.dropWhile isPySpace with
  | [] => false
  | c :: tl => isAsciiUpper c && scanToColon tl

/-- Index of the leftmost `\n` starting a `\n\s*[A-Z][\w\s]*:` match
(`re.search(...).start()` in `_clean_response`). -/
def findSpeakerCut : List Char → Option Nat
  | [] => none
  | c :: tl =>
    if c = '\n' && newlineSpeakerMatch tl then some 0
    else (findSpeakerCut tl).map (fun i => i + 1)

/-- Source `DiveBarApp._clean_response`: strip, remove one leading
`Name:`/`Name N:` prefix, truncate at any mid-text `Name:` dialogue
pattern.  (The source's unused `name` parameter is dropped.) -/
def clean_response (text : String) : String :=
  let cleaned := pyStrip text
  let cleaned := pyStrip (String.mk (stripLeadName cleaned.toList))
  match findSpeakerCut cleaned.toList with
  | some i => pyStrip (String.mk (cleaned.toList.take i))
  | none => cleaned

/-! ### `dive_bar/app.py`: orchestration loop -/

/-- Source `dive_bar/models.py` `DiversityConfig` (the fields the loop reads). -/
structure DiversityConfig where
  enabled : Bool
  threshold : ℚ
  max_retries : Nat
  window_size : Nat
  ngram_min : Nat
  ngram_max : Nat
  deriving Repr, DecidableEq

/-- Source `DiveBarApp._diversity_loop`, fuel-indexed: `fuel` is the number of
iterations the `while attempt < max_retries` loop may still run
(`fuel = max_retries - attempt`), `regen i` is the raw engine output of
the regeneration requested at attempt counter `i` (the corrective-prompt
generate call), which the loop cleans exactly as the source does. -/
def diversity_loop_aux (cfg : DiversityConfig) (history : List Message) (name : String)
    (regen : Nat → String) : Nat → String → Nat → String × Nat
  | 0, content, attempt => (content, attempt)
  | fuel + 1, content, attempt =>
    let d := compute_diversity_score content history name cfg.window_size cfg.threshold
      cfg.ngram_min cfg.ngram_max
    if d.passed then (content, attempt)
    else
      let content' := clean_response (regen attempt)
      if content' = "" then (content', attempt + 1)
      else diversity_loop_aux cfg history name regen fuel content' (attempt + 1)

/-- Source `DiveBarApp._diversity_loop`: returns `(final_content, regen_count)`. -/
def diversity_loop (cfg : DiversityConfig) (history : List Message) (name : String)
    (content : String) (regen : Nat → String) : String × Nat :=
  diversity_loop_aux cfg history name regen cfg.max_retries content 0

/-- The application state mutated by the orchestration loop: the
conversation history, the bartender state, and the persistence log
(messages as `(turn_number, agent_name, content)` rows, regeneration
events as `(turn_number, agent_name, attempt_count)` rows). -/
structure AppState where
  history : List Message
  bart : BartenderState
  dbMessages : List (Nat × String × String)
  dbRegens : List (Nat × String × Nat)
  deriving Repr, DecidableEq

/-- Observable effects of one `_generate_turn` call, for stating the
orchestration claims: the utterance committed to history (if any), how
many times `record_spoke` ran, and whether the next tick was scheduled
(via `_display_message` or `_on_empty_response`). -/
structure TurnOutcome where
  committed : Option Message
  recordSpokeCalls : Nat
  scheduledNext : Bool
  finalContent : String
  deriving Repr, DecidableEq

/-- Source `DiveBarApp._generate_turn` for the chosen agent `name`: clean the raw
generation `gen0`, run the diversity loop when enabled and the content is
non-empty, always `record_spoke`, and commit the utterance at the
post-increment turn number unless the final content is empty.
(`get_score` is called in the source only to log it; it has no state
effect and its value is not modelled in the db row.) -/
def generate_turn (div : DiversityConfig) (st : AppState) (now : ℚ) (name : String)
    (gen0 : String) (regen : Nat → String) : AppState × TurnOutcome :=
  let content₀ := clean_response gen0
  let lp := if div.enabled && content₀ ≠ "" then
      diversity_loop div st.history name content₀ regen
    else (content₀, 0)
  let content := lp.1
  let dbRegens' := if div.enabled && content₀ ≠ "" && lp.2 > 0 then
      st.dbRegens ++ [(st.bart.turn_number, name, lp.2)]
    else st.dbRegens
  let last_speaker := (st.history.getLast?).map (fun m => m.agent_name)
  let bart' := record_spoke st.bart now name last_speaker
  if content = "" then
    ({ st with bart := bart', dbRegens := dbRegens' },
     { committed := none, recordSpokeCalls := 1, scheduledNext := true, finalContent := "" })
  else
    let turn := bart'.turn_number
    let msg : Message := ⟨name, content, turn, now⟩
    ({ history := st.history ++ [msg]
       bart := bart'
       dbMessages := st.dbMessages ++ [(turn, name, content)]
       dbRegens := dbRegens' },
     { committed := some msg, recordSpokeCalls := 1, scheduledNext := true,
       finalContent := content })

/-- Source `DiveBarApp._tick`: paused → reschedule only; no speaker → reschedule
only; otherwise run the turn for the selected speaker. -/
def tick (div : DiversityConfig) (st : AppState) (now : ℚ) (rand : String → ℚ)
    (gen0 : String) (regen : Nat → String) : AppState × TurnOutcome :=
  if st.bart.paused then
    (st, { committed := none, recordSpokeCalls := 0, scheduledNext := true, finalContent := "" })
  else
    match select_next st.bart now rand st.history.getLast? with
    | none =>
      (st, { committed := none, recordSpokeCalls := 0, scheduledNext := true, finalContent := "" })
    | some name => generate_turn div st now name gen0 regen

/-- Source `DiveBarApp.on_stranger_message`: append an utterance at
`turn_number + 1` WITHOUT advancing the bartender's counter, and log it. -/
def stranger_message (st : AppState) (now : ℚ) (text : String) : AppState :=
  let turn := st.bart.turn_number + 1
  { st with
    history := st.history ++ [⟨"A stranger", text, turn, now⟩]
    dbMessages := st.dbMessages ++ [(turn, "A stranger", text)] }

/-- One external event driving the loop: a timer tick (with its wall-clock
time, random draws, and the engine's raw outputs) or an injected stranger
message. -/
inductive Event where
  | tick (now : ℚ) (rand : String → ℚ) (gen0 : String) (regen : Nat → String)
  | stranger (now : ℚ) (text : String)

/-- Advance the application state by one event. -/
def step (div : DiversityConfig) (st : AppState) : Event → AppState
  | .tick now rand gen0 regen => (tick div st now rand gen0 regen).1
  | .stranger now text => stranger_message st now text

/-- Run a sequence of events. -/
def run (div : DiversityConfig) (st : AppState) (events : List Event) : AppState :=
  events.foldl (step div) st

/-- The app's start state after `_seed_conversation`: the bartender's
opener committed at turn 0, a fresh `Bartender`. -/
def initState (agent_configs : List AgentConfig) (tick_interval : ℚ) (opener : String)
    (t0 : ℚ) : AppState :=
  { history := [⟨"Bartender", opener, 0, t0⟩]
    bart := bartenderInit agent_configs tick_interval
    dbMessages := []
    dbRegens := [] }

/-- The committed turn numbers, in history order. -/
def turnNumbers (st : AppState) : List Nat :=
  st.history.map (fun m => m.turn_number)

/-- A well-behaved tick: its generation and all its regenerations clean
to non-empty text.  Stranger injections are excluded. -/
def NiceEvent : Event → Prop
  | Event.tick _ _ gen0 regen =>
      clean_response gen0 ≠ "" ∧ ∀ i, clean_response (regen i) ≠ ""
  | Event.stranger _ _ => False

/-- Invariant: committed turn numbers are non-decreasing and the last one
is at most one ahead of the scheduler's counter. -/
def TurnsMono (st : AppState) : Prop :=
  List.Chain' (fun a b => a ≤ b) (turnNumbers st) ∧
  ∀ m ∈ st.history.getLast?, m.turn_number ≤ st.bart.turn_number + 1

/-- Invariant: the committed turn numbers are exactly `0, 1, …, len-1`
and the scheduler's counter is one behind the history length. -/
def TurnsExact (st : AppState) : Prop :=
  turnNumbers st = List.range st.history.length ∧
  st.bart.turn_number + 1 = st.history.length

/-! ## Claims -/

/-! ### C2: aggregate diversity score and pass flag -/

/-- Claim C2 (amended): for every candidate response, history, speaker and
threshold, the `score` field equals the weighted sum
`0.50*ngram + 0.25*opener + 0.25*struct` rounded to three decimals, and
`passed` is true iff the UNROUNDED weighted sum is `≥ threshold` (the
source compares `final_score`, not the rounded `score`, against the
threshold). -/
theorem claim_C2 (response : String) (history : List Message) (agent_name : String)
    (window : Nat) (threshold : ℚ) (ngram_min ngram_max : Nat) :
    (compute_diversity_score response history agent_name window threshold
        ngram_min ngram_max).score =
      roundTo3 (diversity_raw_score response (recentSlice history window) agent_name
        ngram_min ngram_max) ∧
    ((compute_diversity_score response history agent_name window threshold
        ngram_min ngram_max).passed = true ↔
      diversity_raw_score response (recentSlice history window) agent_name
        ngram_min ngram_max ≥ threshold) := by
  refine ⟨rfl, ?_⟩
  simp only [compute_diversity_score]
  exact decide_eq_true_iff

/-- Claim C2 counterexample: at this input the rounded `score` field is at
least the threshold `4643/5000 = 0.9286` while `passed` is `false` — so
`passed` is NOT "rounded score ≥ threshold" as the claim states. -/
theorem claim_C2_counterexample :
    (compute_diversity_score ("b1 b2 b3 b4 b5 b6 b7")
        [⟨"alice", "b1 b2 b3", 0, 0⟩] ("bob") 10 (Rat.divInt 4643 5000) 3 6).score ≥
      Rat.divInt 4643 5000 ∧
    (compute_diversity_score ("b1 b2 b3 b4 b5 b6 b7")
        [⟨"alice", "b1 b2 b3", 0, 0⟩] ("bob") 10 (Rat.divInt 4643 5000) 3 6).passed =
      false := by
  decide

/-! ### C10: short candidates skip the n-gram check -/

/-- Claim C10: a candidate that tokenizes to fewer than `ngram_min` words
gets overlap ratio 0 and no phrases regardless of history, hence never
triggers the repeated-phrases problem and receives the full n-gram score
contribution. -/
theorem claim_C10 (response : String) (history : List Message) (agent_name : String)
    (window : Nat) (threshold : ℚ) (ngram_min ngram_max : Nat)
    (h : (tokenize response).length < ngram_min) :
    check_ngram_overlap response
      (build_history_ngrams (recentSlice history window) ngram_min ngram_max)
      ngram_min ngram_max = (0, []) ∧
    (compute_diversity_score response history agent_name window threshold
      ngram_min ngram_max).repeated_ngrams = [] ∧
    (compute_diversity_score response history agent_name window threshold
        ngram_min ngram_max).problems =
      opener_problems_of response (recentSlice history window) agent_name ++
        struct_problems_of response (recentSlice history window) agent_name ∧
    ngram_score_of response (recentSlice history window) ngram_min ngram_max = 1 := by
  have hover : ∀ hist : List Message,
      check_ngram_overlap response (build_history_ngrams hist ngram_min ngram_max)
        ngram_min ngram_max = (0, []) := by
    intro hist
    simp only [check_ngram_overlap]
    rw [if_pos h]
  have hthr : ¬ ((0 : ℚ) > NGRAM_OVERLAP_THRESHOLD) := by
    rw [NGRAM_OVERLAP_THRESHOLD]; norm_num
  have hscore : ngram_score_of response (recentSlice history window) ngram_min ngram_max = 1 := by
    simp only [ngram_score_of, hover]
    norm_num
  refine ⟨hover _, ?_, ?_, hscore⟩
  · simp only [compute_diversity_score, hover]
    rw [if_neg hthr]
  · simp only [compute_diversity_score, ngram_problems_of, hover]
    rw [if_neg hthr, List.nil_append]

/-- Witness for C10 at a concrete short candidate ("the beer" tokenizes to
the single word "beer"). -/
theorem claim_C10_witness :
    check_ngram_overlap ("the beer")
      (build_history_ngrams (recentSlice [⟨"alice", "b1 b2 b3 b4", 0, 0⟩] 10) 3 6) 3 6 =
      (0, []) ∧
    (compute_diversity_score ("the beer") [⟨"alice", "b1 b2 b3 b4", 0, 0⟩] ("bob") 10
      (Rat.divInt 6 10) 3 6).repeated_ngrams = [] := by
  have h := claim_C10 ("the beer") [⟨"alice", "b1 b2 b3 b4", 0, 0⟩] ("bob") 10
    (Rat.divInt 6 10) 3 6 (by decide)
  exact ⟨h.1, h.2.1⟩

/-! ### C7: the regeneration loop is bounded and stops early on a pass -/

/-- The attempt counter returned by the loop body is bounded by the
remaining fuel. -/
theorem diversity_loop_aux_le (cfg : DiversityConfig) (history : List Message)
    (name : String) (regen : Nat → String) :
    ∀ (fuel : Nat) (content : String) (attempt : Nat),
      (diversity_loop_aux cfg history name regen fuel content attempt).2 ≤ attempt + fuel := by
  intro fuel
  induction fuel with
  | zero => intro content attempt; simp [diversity_loop_aux]
  | succ n ih =>
    intro content attempt
    simp only [diversity_loop_aux]
    split
    · omega
    · split
      · simp only; omega
      · have := ih (clean_response (regen attempt)) (attempt + 1)
        omega

/-- Claim C7: the diversity regeneration loop makes at most `max_retries`
regeneration attempts (and, being a total function, terminates), and an
initially passing candidate is returned unchanged with 0 attempts. -/
theorem claim_C7 (cfg : DiversityConfig) (history : List Message) (name content : String)
    (regen : Nat → String) :
    (diversity_loop cfg history name content regen).2 ≤ cfg.max_retries ∧
    ((compute_diversity_score content history name cfg.window_size cfg.threshold
        cfg.ngram_min cfg.ngram_max).passed = true →
      diversity_loop cfg history name content regen = (content, 0)) := by
  constructor
  · have := diversity_loop_aux_le cfg history name regen cfg.max_retries content 0
    simpa [diversity_loop] using this
  · intro hpass
    cases hmr : cfg.max_retries with
    | zero => simp [diversity_loop, hmr, diversity_loop_aux]
    | succ n => simp [diversity_loop, hmr, diversity_loop_aux, hpass]

/-- Witness for C7: a concrete passing candidate is returned unchanged
with 0 attempts, and the attempt bound holds there. -/
theorem claim_C7_witness :
    (diversity_loop ⟨true, Rat.divInt 6 10, 3, 10, 3, 6⟩ [] ("bob")
      ("purple monkeys dance wildly") (fun _ => "")).2 ≤ 3 ∧
    diversity_loop ⟨true, Rat.divInt 6 10, 3, 10, 3, 6⟩ [] ("bob")
      ("purple monkeys dance wildly") (fun _ => "") =
      ("purple monkeys dance wildly", 0) := by
  have h := claim_C7 ⟨true, Rat.divInt 6 10, 3, 10, 3, 6⟩ [] ("bob")
    ("purple monkeys dance wildly") (fun _ => "")
  exact ⟨h.1, h.2 (by decide)⟩

/-! ### C5: formulaic opener flagged on the third occurrence -/

/-- For a non-empty signature, the source's opener Counter lookup equals
the number of history messages by the agent whose opener equals it. -/
theorem build_opener_counts_eq (history : List Message) (agent op : String) (hop : op ≠ "") :
    build_opener_counts history agent op =
      (history.filter (fun m => m.agent_name = agent ∧ get_opener m.content = op)).length := by
  induction history with
  | nil => rfl
  | cons m t ih =>
    by_cases h1 : m.agent_name = agent <;> by_cases h2 : get_opener m.content = op <;>
      simp only [build_opener_counts, List.filter_cons, List.map_cons, List.countP_cons,
        h1, h2] at ih ⊢ <;>
      simp_all [build_opener_counts, hop, h1, h2]

/-- Claim C5 (amended): provided the candidate's normalized opener
signature is non-empty, a speaker with exactly two prior window utterances
of the same signature is flagged formulaic (opener contribution 0), while
exactly one such prior utterance is not flagged (contribution 1): the
third occurrence is flagged, not the second.  (All-punctuation candidates
have an empty signature and are never flagged — see the counterexample.) -/
theorem claim_C5 (response : String) (history : List Message) (agent_name : String)
    (hop : get_opener response ≠ "") :
    ((history.filter (fun m => m.agent_name = agent_name ∧
        get_opener m.content = get_opener response)).length = 2 →
      check_formulaic_opener response (build_opener_counts history agent_name) =
        some (get_opener response) ∧
      opener_score_of response history agent_name = 0) ∧
    ((history.filter (fun m => m.agent_name = agent_name ∧
        get_opener m.content = get_opener response)).length = 1 →
      check_formulaic_opener response (build_opener_counts history agent_name) = none ∧
      opener_score_of response history agent_name = 1) := by
  have hc := build_opener_counts_eq history agent_name (get_opener response) hop
  constructor
  · intro h2
    have hflag : check_formulaic_opener response (build_opener_counts history agent_name) =
        some (get_opener response) := by
      simp only [check_formulaic_opener]
      rw [if_neg hop, if_pos]
      rw [hc, h2]
      decide
    exact ⟨hflag, by simp [opener_score_of, hflag]⟩
  · intro h1
    have hflag : check_formulaic_opener response (build_opener_counts history agent_name) =
        none := by
      simp only [check_formulaic_opener]
      rw [if_neg hop, if_neg]
      rw [hc, h1]
      decide
    exact ⟨hflag, by simp [opener_score_of, hflag]⟩

/-- Claim C5 counterexample: the candidate `"!!!"` has an empty opener
signature, and the window holds exactly two prior utterances by the same
speaker with that same (empty) signature, yet the candidate is NOT
flagged and the opener contribution is 1 — refuting the unrestricted
claim. -/
theorem claim_C5_counterexample :
    get_opener ("!!!") = "" ∧
    (([⟨"bob", "???", 0, 0⟩, ⟨"bob", "???", 1, 0⟩] : List Message).filter
      (fun m => m.agent_name = "bob" ∧ get_opener m.content = get_opener ("!!!"))).length = 2 ∧
    check_formulaic_opener ("!!!")
      (build_opener_counts [⟨"bob", "???", 0, 0⟩, ⟨"bob", "???", 1, 0⟩] ("bob")) = none ∧
    opener_score_of ("!!!") [⟨"bob", "???", 0, 0⟩, ⟨"bob", "???", 1, 0⟩] ("bob") = 1 := by
  decide

/-- Witness for C5 at a concrete non-empty opener repeated twice before. -/
theorem claim_C5_witness :
    check_formulaic_opener ("nice beer pal")
      (build_opener_counts [⟨"bob", "nice beer pal", 0, 0⟩, ⟨"bob", "nice beer pal", 1, 0⟩]
        ("bob")) = some (get_opener ("nice beer pal")) ∧
    opener_score_of ("nice beer pal")
      [⟨"bob", "nice beer pal", 0, 0⟩, ⟨"bob", "nice beer pal", 1, 0⟩] ("bob") = 0 :=
  (claim_C5 ("nice beer pal") [⟨"bob", "nice beer pal", 0, 0⟩, ⟨"bob", "nice beer pal", 1, 0⟩]
    ("bob") (by decide)).1 (by decide)

/-! ### C3: cooldown is respected by selection -/

/-- The first-maximum fold only returns elements of the list (or the
initial accumulator). -/
theorem argmaxFirst_mem (l : List String) (f : String → ℚ) (p : String)
    (h : argmaxFirst l f = some p) : p ∈ l := by
  have key : ∀ (l' : List String) (acc : Option String),
      l'.foldl (fun acc n =>
        match acc with
        | none => some n
        | some m => if f n > f m then some n else some m) acc = some p →
      p ∈ l' ∨ acc = some p := by
    intro l'
    induction l' with
    | nil => intro acc hf; exact Or.inr hf
    | cons a t ih =>
      intro acc hf
      rw [List.foldl_cons] at hf
      rcases ih _ hf with h' | h'
      · exact Or.inl (List.mem_cons_of_mem _ h')
      · cases acc with
        | none =>
          have h2 : some a = some p := h'
          simp only [Option.some.injEq] at h2
          exact Or.inl (h2 ▸ List.mem_cons_self a t)
        | some m =>
          have h2 : (if f a > f m then some a else some m) = some p := h'
          by_cases hgt : f a > f m
          · rw [if_pos hgt] at h2
            simp only [Option.some.injEq] at h2
            exact Or.inl (h2 ▸ List.mem_cons_self a t)
          · rw [if_neg hgt] at h2
            exact Or.inr h2
  rcases key l none h with h' | h'
  · exact h'
  · exact absurd h' (by simp)

/-- Everything `_get_eligible` returns is outside cooldown. -/
theorem get_eligible_cooldown (st : BartenderState) (now : ℚ) (p : String)
    (h : p ∈ get_eligible st now) :
    now - lookupD st.last_spoke p 0 ≥ st.cooldown := by
  unfold get_eligible at h
  rw [List.mem_filterMap] at h
  rcases h with ⟨a, _, ha⟩
  by_cases hc : now - lookupD st.last_spoke a.name 0 ≥ st.cooldown
  · rw [if_pos hc] at ha
    simp only [Option.some.injEq] at ha
    exact ha ▸ hc
  · rw [if_neg hc] at ha
    exact absurd ha (by simp)

/-- The weighted fall-through only returns eligible (outside-cooldown)
agents. -/
theorem select_weighted_cooldown (st : BartenderState) (now : ℚ) (rand : String → ℚ)
    (last_message : Option Message) (p : String)
    (h : select_weighted st now rand last_message = some p) :
    now - lookupD st.last_spoke p 0 ≥ st.cooldown := by
  simp only [select_weighted] at h
  split at h
  · exact absurd h (by simp)
  · exact get_eligible_cooldown st now p (argmaxFirst_mem _ _ _ h)

/-- Claim C3: `select_next` never returns a persona whose elapsed time
since it last spoke is below the cooldown, unless that persona is the
deterministic addressing candidate — quantified over all rosters,
last-spoke timestamps, pair histories, times and random draws.  (In fact
the addressing path also enforces the cooldown; the disjunction mirrors
the claim's wording.) -/
theorem claim_C3 (st : BartenderState) (now : ℚ) (rand : String → ℚ)
    (last_message : Option Message) (p : String)
    (h : select_next st now rand last_message = some p) :
    now - lookupD st.last_spoke p 0 ≥ st.cooldown ∨
      find_addressed st now last_message = some p := by
  unfold select_next at h
  by_cases hp : st.paused = true
  · rw [if_pos (by simp [hp])] at h
    exact absurd h (by simp)
  · rw [if_neg (by simpa using hp)] at h
    cases haddr : find_addressed st now last_message with
    | none =>
      rw [haddr] at h
      exact Or.inl (select_weighted_cooldown st now rand last_message p h)
    | some addr =>
      rw [haddr] at h
      cases hlm : last_message with
      | none => rw [hlm] at haddr; exact absurd haddr (by simp [find_addressed])
      | some m =>
        rw [hlm] at h
        have h2 : (if pair_locked st m.agent_name addr = true then
            select_weighted st now rand (some m) else some addr) = some p := h
        by_cases hlock : pair_locked st m.agent_name addr = true
        · rw [if_pos hlock] at h2
          exact Or.inl (select_weighted_cooldown st now rand (some m) p (hlm ▸ h2))
        · rw [if_neg hlock] at h2
          simp only [Option.some.injEq] at h2
          exact Or.inr (congrArg some h2)

/-- Witness for C3: a concrete state in which `select_next` picks `"bob"`. -/
theorem claim_C3_witness :
    100 - lookupD (bartenderInit [⟨"bob", "", [], Rat.divInt 1 2, Rat.divInt 1 2, "", ""⟩]
        2).last_spoke ("bob") 0 ≥
      (bartenderInit [⟨"bob", "", [], Rat.divInt 1 2, Rat.divInt 1 2, "", ""⟩] 2).cooldown ∨
    find_addressed (bartenderInit [⟨"bob", "", [], Rat.divInt 1 2, Rat.divInt 1 2, "", ""⟩] 2)
      100 none = some ("bob") :=
  claim_C3 (bartenderInit [⟨"bob", "", [], Rat.divInt 1 2, Rat.divInt 1 2, "", ""⟩] 2)
    100 (fun _ => 0) none ("bob") (by decide)

/-! ### C4: pair-lock suppresses the deterministic addressing path -/

/-- Claim C4: when the last two pair-history entries both involve the
unordered pair {last speaker, addressed candidate} and the scheduler is
active, `select_next` does not return the deterministic candidate
directly but falls through to weighted scoring over the eligible
personas. -/
theorem claim_C4 (st : BartenderState) (now : ℚ) (rand : String → ℚ) (m : Message)
    (addressed : String)
    (hp : st.paused = false)
    (ha : find_addressed st now (some m) = some addressed)
    (hl : pair_locked st m.agent_name addressed = true) :
    select_next st now rand (some m) = select_weighted st now rand (some m) := by
  unfold select_next
  rw [if_neg (by simp [hp]), ha]
  exact if_pos hl

/-- Witness for C4: alice addressed bob, the pair history tail is
`[(alice,bob),(bob,alice)]`, and selection falls through to weighted
scoring. -/
theorem claim_C4_witness :
    select_next
      { bartenderInit [⟨"alice", "", [], Rat.divInt 1 2, Rat.divInt 1 2, "", ""⟩,
          ⟨"bob", "", [], Rat.divInt 1 2, Rat.divInt 1 2, "", ""⟩] 2 with
        pair_history := [("alice", "bob"), ("bob", "alice")],
        last_spoke := [("alice", 90)] }
      100 (fun _ => 0) (some ⟨"alice", "bob you there", 3, 99⟩) =
    select_weighted
      { bartenderInit [⟨"alice", "", [], Rat.divInt 1 2, Rat.divInt 1 2, "", ""⟩,
          ⟨"bob", "", [], Rat.divInt 1 2, Rat.divInt 1 2, "", ""⟩] 2 with
        pair_history := [("alice", "bob"), ("bob", "alice")],
        last_spoke := [("alice", 90)] }
      100 (fun _ => 0) (some ⟨"alice", "bob you there", 3, 99⟩) :=
  claim_C4 _ 100 (fun _ => 0) ⟨"alice", "bob you there", 3, 99⟩ ("bob")
    (by decide) (by decide) (by decide)

/-! ### C6: a verbatim 4-word phrase yields full overlap -/

/-- Every contiguous block of length `n` is among the extracted n-grams. -/
theorem mem_extract_ngrams (l s : List String) (n : Nat) (hn : s.length = n)
    (hsub : ∃ t u, l = t ++ s ++ u) : s ∈ extract_ngrams l n := by
  rcases hsub with ⟨t, u, rfl⟩
  have hlen : (t ++ s ++ u).length = t.length + n + u.length := by
    simp [hn]; omega
  unfold extract_ngrams
  rw [if_neg (by omega)]
  refine List.mem_map.mpr ⟨t.length, ?_, ?_⟩
  · rw [List.mem_range]; omega
  · rw [List.append_assoc, List.drop_left, ← hn, List.take_left]

/-- An n-gram occurring contiguously in some history message's
tokenization (3 ≤ n ≤ 6) is in the history n-gram set. -/
theorem mem_build_history_ngrams (history : List Message) (msg : Message)
    (s : List String) (n : Nat) (hmem : msg ∈ history) (hn : s.length = n)
    (h3 : 3 ≤ n) (h6 : n ≤ 6)
    (hsub : ∃ t u, tokenize msg.content = t ++ s ++ u) :
    s ∈ build_history_ngrams history 3 6 := by
  unfold build_history_ngrams
  refine List.mem_flatMap.mpr ⟨msg, hmem, ?_⟩
  refine List.mem_flatMap.mpr ⟨n, ?_, mem_extract_ngrams _ s n hn hsub⟩
  unfold rangeIncl
  refine List.mem_map.mpr ⟨n - 3, ?_, by omega⟩
  rw [List.mem_range]; omega

/-- Claim C6 (amended): when the candidate tokenizes to exactly the four
words `w1 w2 w3 w4` and those four tokens occur contiguously in the
tokenization of some history utterance (in particular when the candidate
is a 4-word phrase of non-stop-words appearing verbatim, word-aligned, in
the window), every 3-gram and 4-gram of the candidate is in the history
n-gram set, the overlap ratio is exactly 1, and the 4-word phrase is
among the reported repeated phrases.  (A phrase containing stop words
tokenizes shorter and escapes the check — see the counterexample.) -/
theorem claim_C6 (response : String) (history : List Message) (w1 w2 w3 w4 : String)
    (msg : Message) (htok : tokenize response = [w1, w2, w3, w4]) (hmem : msg ∈ history)
    (hsub : ∃ t u, tokenize msg.content = t ++ [w1, w2, w3, w4] ++ u) :
    (check_ngram_overlap response (build_history_ngrams history 3 6) 3 6).1 = 1 ∧
    String.intercalate (" ") [w1, w2, w3, w4] ∈
      (check_ngram_overlap response (build_history_ngrams history 3 6) 3 6).2 := by
  rcases hsub with ⟨t, u, ht⟩
  have m1 : [w1, w2, w3] ∈ build_history_ngrams history 3 6 :=
    mem_build_history_ngrams history msg _ 3 hmem rfl (by omega) (by omega)
      ⟨t, w4 :: u, by rw [ht]; simp⟩
  have m2 : [w2, w3, w4] ∈ build_history_ngrams history 3 6 :=
    mem_build_history_ngrams history msg _ 3 hmem rfl (by omega) (by omega)
      ⟨t ++ [w1], u, by rw [ht]; simp⟩
  have m3 : [w1, w2, w3, w4] ∈ build_history_ngrams history 3 6 :=
    mem_build_history_ngrams history msg _ 4 hmem rfl (by omega) (by omega) ⟨t, u, ht⟩
  have hresp : (rangeIncl 3 6).flatMap (fun n => extract_ngrams [w1, w2, w3, w4] n) =
      [[w1, w2, w3], [w2, w3, w4], [w1, w2, w3, w4]] := rfl
  have hfil : ([[w1, w2, w3], [w2, w3, w4], [w1, w2, w3, w4]]).filter
      (fun ng => (build_history_ngrams history 3 6).contains ng) =
      [[w1, w2, w3], [w2, w3, w4], [w1, w2, w3, w4]] := by
    refine List.filter_eq_self.mpr ?_
    intro a ha
    rcases ha with _ | ⟨_, (_ | ⟨_, (_ | ⟨_, h⟩)⟩)⟩
    · exact List.elem_iff.mpr m1
    · exact List.elem_iff.mpr m2
    · exact List.elem_iff.mpr m3
    · cases h
  simp only [check_ngram_overlap, htok, hresp, hfil]
  norm_num
  have hded : (([[w1, w2, w3], [w2, w3, w4], [w1, w2, w3, w4]]).map
      (fun ng => String.intercalate (" ") ng)).dedup.length ≤ 5 :=
    le_trans (List.dedup_sublist _).length_le (by simp)
  simp only [List.map_cons, List.map_nil] at hded
  rw [List.take_of_length_le hded]
  exact List.mem_dedup.mpr (by simp)

/-- Claim C6 counterexample: the candidate `"i like the beer"` is a
4-word phrase appearing verbatim (word-aligned) inside the history
utterance `"i like the beer tonight"`, yet the overlap ratio is 0 and no
phrase is reported, because three of its words are stop words and the
candidate tokenizes below `ngram_min` — refuting the unrestricted claim. -/
theorem claim_C6_counterexample :
    pySplit ("i like the beer") = ["i", "like", "the", "beer"] ∧
    ("i like the beer") ++ (" tonight") = ("i like the beer tonight") ∧
    check_ngram_overlap ("i like the beer")
      (build_history_ngrams [⟨"alice", "i like the beer tonight", 0, 0⟩] 3 6) 3 6 =
      (0, []) := by
  decide

/-- Witness for C6 at a concrete stop-word-free phrase. -/
theorem claim_C6_witness :
    (check_ngram_overlap ("purple monkeys dance wildly")
      (build_history_ngrams [⟨"alice", "so purple monkeys dance wildly tonight", 0, 0⟩] 3 6)
      3 6).1 = 1 ∧
    String.intercalate (" ") ["purple", "monkeys", "dance", "wildly"] ∈
      (check_ngram_overlap ("purple monkeys dance wildly")
        (build_history_ngrams [⟨"alice", "so purple monkeys dance wildly tonight", 0, 0⟩] 3 6)
        3 6).2 :=
  claim_C6 ("purple monkeys dance wildly")
    [⟨"alice", "so purple monkeys dance wildly tonight", 0, 0⟩]
    ("purple") ("monkeys") ("dance") ("wildly")
    ⟨"alice", "so purple monkeys dance wildly tonight", 0, 0⟩
    (by decide) (by decide)
    ⟨[], ["tonight"], by decide⟩

/-! ### C8: exhausted retries keep the last candidate; empty regenerations discard it -/

/-- If every regeneration cleans to non-empty text, the loop's final
content is non-empty whenever the initial content is. -/
theorem diversity_loop_aux_ne_empty (cfg : DiversityConfig) (history : List Message)
    (name : String) (regen : Nat → String)
    (hr : ∀ i, clean_response (regen i) ≠ "") :
    ∀ (fuel : Nat) (content : String) (attempt : Nat), content ≠ "" →
      (diversity_loop_aux cfg history name regen fuel content attempt).1 ≠ "" := by
  intro fuel
  induction fuel with
  | zero => intro content attempt h0; exact h0
  | succ n ih =>
    intro content attempt h0
    simp only [diversity_loop_aux]
    split
    · exact h0
    · rw [if_neg (hr attempt)]
      exact ih _ _ (hr attempt)

/-- Claim C8 (amended): as long as the initial cleaned candidate is
non-empty and no regeneration cleans to empty text, the turn always
commits an utterance — in particular, when the loop exhausts its retry
budget without passing, the last candidate is accepted and committed, not
discarded.  (An empty regeneration result, by contrast, replaces the
candidate and aborts the commit — see the counterexample.) -/
theorem claim_C8 (div : DiversityConfig) (st : AppState) (now : ℚ) (name gen0 : String)
    (regen : Nat → String)
    (h0 : clean_response gen0 ≠ "") (hr : ∀ i, clean_response (regen i) ≠ "") :
    ∃ m : Message, (generate_turn div st now name gen0 regen).2.committed = some m ∧
      (generate_turn div st now name gen0 regen).1.history = st.history ++ [m] ∧
      m.content ≠ "" := by
  have hloop : (if div.enabled && clean_response gen0 ≠ "" then
      diversity_loop div st.history name (clean_response gen0) regen
    else (clean_response gen0, 0)).1 ≠ "" := by
    split
    · exact diversity_loop_aux_ne_empty div st.history name regen hr _ _ _ h0
    · exact h0
  simp only [generate_turn]
  rw [if_neg hloop]
  exact ⟨_, rfl, rfl, hloop⟩

/-- Claim C8 counterexample: the initial cleaned candidate is non-empty
but fails the diversity check; the sole regeneration returns empty text,
so the loop ends with empty content, the non-empty candidate is
discarded, and nothing is committed. -/
theorem claim_C8_counterexample :
    clean_response ("purple monkeys dance wildly") ≠ "" ∧
    (generate_turn ⟨true, Rat.divInt 6 10, 3, 10, 3, 6⟩
      ⟨[⟨"bob", "purple monkeys dance wildly", 1, 0⟩,
        ⟨"bob", "purple monkeys dance wildly", 2, 0⟩],
       bartenderInit [⟨"bob", "", [], Rat.divInt 1 2, Rat.divInt 1 2, "", ""⟩] 2, [], []⟩
      5 ("bob") ("purple monkeys dance wildly") (fun _ => "")).2.committed = none ∧
    (generate_turn ⟨true, Rat.divInt 6 10, 3, 10, 3, 6⟩
      ⟨[⟨"bob", "purple monkeys dance wildly", 1, 0⟩,
        ⟨"bob", "purple monkeys dance wildly", 2, 0⟩],
       bartenderInit [⟨"bob", "", [], Rat.divInt 1 2, Rat.divInt 1 2, "", ""⟩] 2, [], []⟩
      5 ("bob") ("purple monkeys dance wildly") (fun _ => "")).1.history =
      [⟨"bob", "purple monkeys dance wildly", 1, 0⟩,
       ⟨"bob", "purple monkeys dance wildly", 2, 0⟩] := by
  decide

/-- Witness for C8: with non-empty regenerations the turn commits. -/
theorem claim_C8_witness :
    ∃ m : Message,
      (generate_turn ⟨true, Rat.divInt 6 10, 3, 10, 3, 6⟩
        ⟨[], bartenderInit [⟨"bob", "", [], Rat.divInt 1 2, Rat.divInt 1 2, "", ""⟩] 2, [], []⟩
        5 ("bob") ("purple monkeys dance wildly") (fun _ => "fresh words again")).2.committed =
        some m ∧
      (generate_turn ⟨true, Rat.divInt 6 10, 3, 10, 3, 6⟩
        ⟨[], bartenderInit [⟨"bob", "", [], Rat.divInt 1 2, Rat.divInt 1 2, "", ""⟩] 2, [], []⟩
        5 ("bob") ("purple monkeys dance wildly") (fun _ => "fresh words again")).1.history =
        [] ++ [m] ∧
      m.content ≠ "" :=
  claim_C8 ⟨true, Rat.divInt 6 10, 3, 10, 3, 6⟩
    ⟨[], bartenderInit [⟨"bob", "", [], Rat.divInt 1 2, Rat.divInt 1 2, "", ""⟩] 2, [], []⟩
    5 ("bob") ("purple monkeys dance wildly") (fun _ => "fresh words again")
    (by decide) (fun _ => show clean_response ("fresh words again") ≠ "" by decide)

/-! ### C9: empty generations are no-op turns -/

/-- Source `record_spoke` always advances the turn counter by exactly one. -/
theorem record_spoke_turn_number (st : BartenderState) (now : ℚ) (agent_name : String)
    (last_speaker : Option String) :
    (record_spoke st now agent_name last_speaker).turn_number = st.turn_number + 1 :=
  rfl

/-- Claim C9: a whitespace-only generation cleans to the empty string,
and a tick whose cleaned generation result is empty is a no-op turn:
`record_spoke` still runs exactly once for the chosen persona (advancing
the turn counter and stamping its slot), no utterance is appended to the
history, nothing is logged, and the next tick is scheduled.  (The model
is a total function, so no error is possible.) -/
theorem claim_C9 :
    (∀ s : String, s.toList.all isPySpace = true → clean_response s = "") ∧
    (∀ (div : DiversityConfig) (st : AppState) (now : ℚ) (name gen0 : String)
      (regen : Nat → String), clean_response gen0 = "" →
      (generate_turn div st now name gen0 regen).1.history = st.history ∧
      (generate_turn div st now name gen0 regen).2.committed = none ∧
      (generate_turn div st now name gen0 regen).2.recordSpokeCalls = 1 ∧
      (generate_turn div st now name gen0 regen).1.bart =
        record_spoke st.bart now name ((st.history.getLast?).map (fun m => m.agent_name)) ∧
      (generate_turn div st now name gen0 regen).1.bart.turn_number =
        st.bart.turn_number + 1 ∧
      (generate_turn div st now name gen0 regen).1.dbMessages = st.dbMessages ∧
      (generate_turn div st now name gen0 regen).2.scheduledNext = true) := by
  constructor
  · intro s hs
    have h1 : s.toList.dropWhile isPySpace = [] :=
      List.dropWhile_eq_nil_iff.mpr (fun x hx => by
        exact List.all_eq_true.mp hs x hx)
    have hps : pyStrip s = "" := by
      unfold pyStrip
      rw [h1]
      rfl
    simp only [clean_response, hps]
    decide
  · intro div st now name gen0 regen h
    refine ⟨?_, ?_, ?_, ?_, ?_, ?_, ?_⟩ <;>
      simp [generate_turn, h, record_spoke_turn_number]

/-- Witness for C9 at concrete inputs: `" \t "` cleans to empty, and an
empty generation commits nothing while advancing the counter. -/
theorem claim_C9_witness :
    clean_response (" \t ") = "" ∧
    (generate_turn ⟨true, Rat.divInt 6 10, 3, 10, 3, 6⟩
      ⟨[], bartenderInit [⟨"bob", "", [], Rat.divInt 1 2, Rat.divInt 1 2, "", ""⟩] 2, [], []⟩
      5 ("bob") ("") (fun _ => "")).2.committed = none ∧
    (generate_turn ⟨true, Rat.divInt 6 10, 3, 10, 3, 6⟩
      ⟨[], bartenderInit [⟨"bob", "", [], Rat.divInt 1 2, Rat.divInt 1 2, "", ""⟩] 2, [], []⟩
      5 ("bob") ("") (fun _ => "")).1.bart.turn_number =
      (bartenderInit [⟨"bob", "", [], Rat.divInt 1 2, Rat.divInt 1 2, "", ""⟩] 2).turn_number
        + 1 := by
  have h2 := claim_C9.2 ⟨true, Rat.divInt 6 10, 3, 10, 3, 6⟩
    ⟨[], bartenderInit [⟨"bob", "", [], Rat.divInt 1 2, Rat.divInt 1 2, "", ""⟩] 2, [], []⟩
    5 ("bob") ("") (fun _ => "") (by decide)
  exact ⟨claim_C9.1 (" \t ") (by decide), h2.2.1, h2.2.2.2.2.1⟩

/-! ### C1: committed turn numbers across ticks and stranger injections -/

/-- The turn counter after `_generate_turn` is the old counter plus one,
and the new history is either unchanged (empty final content) or the old
history with one utterance committed at the new counter value. -/
theorem generate_turn_history_cases (div : DiversityConfig) (st : AppState) (now : ℚ)
    (name gen0 : String) (regen : Nat → String) :
    (generate_turn div st now name gen0 regen).1.bart.turn_number =
      st.bart.turn_number + 1 ∧
    ((generate_turn div st now name gen0 regen).1.history = st.history ∨
      ∃ c : String, (generate_turn div st now name gen0 regen).1.history =
        st.history ++ [⟨name, c, st.bart.turn_number + 1, now⟩]) := by
  simp only [generate_turn]
  split <;> split
  · exact ⟨rfl, Or.inl rfl⟩
  · exact ⟨rfl, Or.inr ⟨_, rfl⟩⟩
  · exact ⟨rfl, Or.inl rfl⟩
  · exact ⟨rfl, Or.inr ⟨_, rfl⟩⟩

/-- When the cleaned generation and all cleaned regenerations are
non-empty, `_generate_turn` commits exactly one utterance, at the new
counter value, with the loop's final (non-empty) content. -/
theorem generate_turn_commits (div : DiversityConfig) (st : AppState) (now : ℚ)
    (name gen0 : String) (regen : Nat → String)
    (h0 : clean_response gen0 ≠ "") (hr : ∀ i, clean_response (regen i) ≠ "") :
    (generate_turn div st now name gen0 regen).2.committed =
      some ⟨name, (generate_turn div st now name gen0 regen).2.finalContent,
        st.bart.turn_number + 1, now⟩ ∧
    (generate_turn div st now name gen0 regen).1.history =
      st.history ++ [⟨name, (generate_turn div st now name gen0 regen).2.finalContent,
        st.bart.turn_number + 1, now⟩] ∧
    (generate_turn div st now name gen0 regen).2.finalContent ≠ "" := by
  have hloop : (if div.enabled && clean_response gen0 ≠ "" then
      diversity_loop div st.history name (clean_response gen0) regen
    else (clean_response gen0, 0)).1 ≠ "" := by
    split
    · exact diversity_loop_aux_ne_empty div st.history name regen hr _ _ _ h0
    · exact h0
  simp only [generate_turn]
  rw [if_neg hloop]
  exact ⟨rfl, rfl, hloop⟩

/-- One step preserves monotone committed turn numbers. -/
theorem step_turnsMono (div : DiversityConfig) (st : AppState) (e : Event)
    (h : TurnsMono st) : TurnsMono (step div st e) := by
  obtain ⟨hchain, hlast⟩ := h
  cases e with
  | stranger now text =>
    show TurnsMono (stranger_message st now text)
    constructor
    · have : turnNumbers (stranger_message st now text) =
          turnNumbers st ++ [st.bart.turn_number + 1] := by
        simp [stranger_message, turnNumbers]
      rw [this]
      refine List.chain'_append.mpr ⟨hchain, List.chain'_singleton _, ?_⟩
      intro x hx y hy
      simp only [List.head?_cons, Option.mem_def, Option.some.injEq] at hy
      subst hy
      simp only [turnNumbers, List.getLast?_map, Option.mem_def, Option.map_eq_some'] at hx
      rcases hx with ⟨m, hm, rfl⟩
      exact hlast m hm
    · intro m hm
      simp only [stranger_message, List.getLast?_concat, Option.mem_def,
        Option.some.injEq] at hm
      subst hm
      show st.bart.turn_number + 1 ≤ (stranger_message st now text).bart.turn_number + 1
      have hb : (stranger_message st now text).bart.turn_number = st.bart.turn_number := rfl
      omega
  | tick now rand gen0 regen =>
    show TurnsMono (tick div st now rand gen0 regen).1
    unfold tick
    split
    · exact ⟨hchain, hlast⟩
    · cases hsel : select_next st.bart now rand st.history.getLast? with
      | none => exact ⟨hchain, hlast⟩
      | some name =>
        obtain ⟨hturn, hcases⟩ :=
          generate_turn_history_cases div st now name gen0 regen
        rcases hcases with hsame | ⟨c, happ⟩
        · constructor
          · show List.Chain' _ (turnNumbers _)
            unfold turnNumbers
            rw [hsame]
            exact hchain
          · intro m hm
            rw [hsame] at hm
            rw [hturn]
            exact le_trans (hlast m hm) (by omega)
        · constructor
          · show List.Chain' _ (turnNumbers _)
            unfold turnNumbers
            rw [happ]
            rw [List.map_append]
            refine List.chain'_append.mpr ⟨hchain, List.chain'_singleton _, ?_⟩
            intro x hx y hy
            simp only [List.map_cons, List.map_nil, List.head?_cons, Option.mem_def,
              Option.some.injEq] at hy
            subst hy
            simp only [List.getLast?_map, Option.mem_def, Option.map_eq_some'] at hx
            rcases hx with ⟨m, hm, rfl⟩
            exact hlast m hm
          · intro m hm
            rw [happ, List.getLast?_concat] at hm
            simp only [Option.mem_def, Option.some.injEq] at hm
            subst hm
            rw [hturn]
            exact Nat.le_succ _

/-- One nice event preserves the exact-turn-numbers invariant. -/
theorem step_turnsExact (div : DiversityConfig) (st : AppState) (e : Event)
    (he : NiceEvent e) (h : TurnsExact st) : TurnsExact (step div st e) := by
  obtain ⟨hturns, hlen⟩ := h
  cases e with
  | stranger now text => exact he.elim
  | tick now rand gen0 regen =>
    obtain ⟨h0, hr⟩ := he
    show TurnsExact (tick div st now rand gen0 regen).1
    unfold tick
    split
    · exact ⟨hturns, hlen⟩
    · cases hsel : select_next st.bart now rand st.history.getLast? with
      | none => exact ⟨hturns, hlen⟩
      | some name =>
        obtain ⟨hc, hh, _⟩ := generate_turn_commits div st now name gen0 regen h0 hr
        obtain ⟨hturn, _⟩ := generate_turn_history_cases div st now name gen0 regen
        constructor
        · show turnNumbers _ = _
          have hproj : (⟨name, (generate_turn div st now name gen0 regen).2.finalContent,
              st.bart.turn_number + 1, now⟩ : Message).turn_number = st.history.length := hlen
          unfold turnNumbers
          rw [hh, List.map_append, List.map_cons, List.map_nil, hproj,
            List.length_append, List.length_cons, List.length_nil,
            show st.history.length + (0 + 1) = st.history.length + 1 from rfl,
            List.range_succ]
          have hturns' : st.history.map (fun m => m.turn_number) =
              List.range st.history.length := hturns
          rw [hturns']
        · rw [hh, List.length_append, hturn]
          simp only [List.length_cons, List.length_nil]
          omega

/-- A property preserved by every step holds after any run. -/
theorem run_preserves (div : DiversityConfig) (P : AppState → Prop)
    (hP : ∀ st e, P st → P (step div st e)) :
    ∀ (events : List Event) (st : AppState), P st → P (run div st events) := by
  intro events
  induction events with
  | nil => intro st h; exact h
  | cons e t ih => intro st h; exact ih _ (hP st e h)

/-- A property preserved by every step satisfying `Q` holds after any run
of events all satisfying `Q`. -/
theorem run_preserves_of (div : DiversityConfig) (P : AppState → Prop)
    (Q : Event → Prop) (hP : ∀ st e, Q e → P st → P (step div st e)) :
    ∀ (events : List Event) (st : AppState), (∀ e ∈ events, Q e) → P st →
      P (run div st events) := by
  intro events
  induction events with
  | nil => intro st _ h; exact h
  | cons e t ih =>
    intro st hq h
    exact ih _ (fun e' he' => hq e' (List.mem_cons_of_mem _ he'))
      (hP st e (hq e (List.mem_cons_self _ _)) h)

/-- Claim C1 (amended): over every sequence of ticks and stranger
injections from the app's start state, the committed turn numbers are
non-decreasing; and when every event is a tick whose cleaned generation
and regenerations are non-empty, they are exactly `0, 1, 2, …` — strictly
increasing with no gaps.  (An empty generation consumes a turn number,
leaving a gap, and a stranger message reuses the upcoming turn number
without advancing the counter, producing a duplicate — see the
counterexample.) -/
theorem claim_C1 (div : DiversityConfig) (agent_configs : List AgentConfig)
    (tick_interval : ℚ) (opener : String) (t0 : ℚ) (events : List Event) :
    List.Chain' (fun a b => a ≤ b)
      (turnNumbers (run div (initState agent_configs tick_interval opener t0) events)) ∧
    ((∀ e ∈ events, NiceEvent e) →
      turnNumbers (run div (initState agent_configs tick_interval opener t0) events) =
        List.range
          (run div (initState agent_configs tick_interval opener t0) events).history.length) := by
  have hinit_mono : TurnsMono (initState agent_configs tick_interval opener t0) := by
    constructor
    · exact List.chain'_singleton _
    · intro m hm
      have hm' : (⟨"Bartender", opener, 0, t0⟩ : Message) = m := by
        simpa [initState] using hm
      subst hm'
      exact Nat.zero_le _
  have hinit_exact : TurnsExact (initState agent_configs tick_interval opener t0) := by
    constructor <;> rfl
  constructor
  · exact (run_preserves div TurnsMono (fun st e => step_turnsMono div st e) events _
      hinit_mono).1
  · intro hnice
    exact (run_preserves_of div TurnsExact NiceEvent
      (fun st e he => step_turnsExact div st e he) events _ hnice hinit_exact).1

/-- Claim C1 counterexample: starting from the seeded state, an
empty-generation tick followed by a committing tick leaves the gap
`0, 2`; a stranger message then commits turn 3 without advancing the
counter, and the next committing tick commits turn 3 again — the
committed turn numbers are `[0, 2, 3, 3]`, neither gap-free nor strictly
increasing. -/
theorem claim_C1_counterexample :
    turnNumbers (run ⟨true, Rat.divInt 6 10, 3, 10, 3, 6⟩
      (initState [⟨"bob", "", [], Rat.divInt 1 2, Rat.divInt 1 2, "", ""⟩] 2
        ("welcome all") 0)
      [Event.tick 100 (fun _ => 0) ("") (fun _ => ""),
       Event.tick 200 (fun _ => 0) ("purple monkeys dance wildly") (fun _ => ""),
       Event.stranger 250 ("hi"),
       Event.tick 300 (fun _ => 0) ("zebras gallop quietly northwards") (fun _ => "")]) =
      [0, 2, 3, 3] ∧
    ¬ List.Chain' (fun a b => b = a + 1)
      (turnNumbers (run ⟨true, Rat.divInt 6 10, 3, 10, 3, 6⟩
        (initState [⟨"bob", "", [], Rat.divInt 1 2, Rat.divInt 1 2, "", ""⟩] 2
          ("welcome all") 0)
        [Event.tick 100 (fun _ => 0) ("") (fun _ => ""),
         Event.tick 200 (fun _ => 0) ("purple monkeys dance wildly") (fun _ => ""),
         Event.stranger 250 ("hi"),
         Event.tick 300 (fun _ => 0) ("zebras gallop quietly northwards") (fun _ => "")])) ∧
    ¬ List.Chain' (fun a b => a < b)
      (turnNumbers (run ⟨true, Rat.divInt 6 10, 3, 10, 3, 6⟩
        (initState [⟨"bob", "", [], Rat.divInt 1 2, Rat.divInt 1 2, "", ""⟩] 2
          ("welcome all") 0)
        [Event.tick 100 (fun _ => 0) ("") (fun _ => ""),
         Event.tick 200 (fun _ => 0) ("purple monkeys dance wildly") (fun _ => ""),
         Event.stranger 250 ("hi"),
         Event.tick 300 (fun _ => 0) ("zebras gallop quietly northwards") (fun _ => "")])) := by
  refine ⟨by decide, ?_, ?_⟩ <;> rw [show turnNumbers _ = [0, 2, 3, 3] from by decide]
  · intro h
    rcases List.chain'_cons.mp h with ⟨h01, _⟩
    omega
  · intro h
    rcases List.chain'_cons.mp h with ⟨_, h2⟩
    rcases List.chain'_cons.mp h2 with ⟨_, h3⟩
    rcases List.chain'_cons.mp h3 with ⟨h33, _⟩
    omega

/-- Witness for C1: two well-behaved ticks from the seeded state commit
exactly the turn numbers `[0, 1, 2]`. -/
theorem claim_C1_witness :
    turnNumbers (run ⟨true, Rat.divInt 6 10, 3, 10, 3, 6⟩
      (initState [⟨"bob", "", [], Rat.divInt 1 2, Rat.divInt 1 2, "", ""⟩] 2
        ("welcome all") 0)
      [Event.tick 100 (fun _ => 0) ("purple monkeys dance wildly") (fun _ => "ok then"),
       Event.tick 200 (fun _ => 0) ("zebras gallop quietly northwards") (fun _ => "ok then")]) =
      List.range (run ⟨true, Rat.divInt 6 10, 3, 10, 3, 6⟩
        (initState [⟨"bob", "", [], Rat.divInt 1 2, Rat.divInt 1 2, "", ""⟩] 2
          ("welcome all") 0)
        [Event.tick 100 (fun _ => 0) ("purple monkeys dance wildly") (fun _ => "ok then"),
         Event.tick 200 (fun _ => 0) ("zebras gallop quietly northwards")
           (fun _ => "ok then")]).history.length := by
  refine (claim_C1 ⟨true, Rat.divInt 6 10, 3, 10, 3, 6⟩
    [⟨"bob", "", [], Rat.divInt 1 2, Rat.divInt 1 2, "", ""⟩] 2 ("welcome all") 0
    [Event.tick 100 (fun _ => 0) ("purple monkeys dance wildly") (fun _ => "ok then"),
     Event.tick 200 (fun _ => 0) ("zebras gallop quietly northwards")
       (fun _ => "ok then")]).2 ?_
  intro e he
  rcases he with _ | ⟨_, (_ | ⟨_, h⟩)⟩
  · exact ⟨by decide, fun _ => show clean_response ("ok then") ≠ "" by decide⟩
  · exact ⟨by decide, fun _ => show clean_response ("ok then") ≠ "" by decide⟩
  · cases h

end DiveBar
